import Mathlib

/-!
# Verification of the node reconciler and spot-provisioning core (pkg/kube/util.go)

Shallow embedding of the Go source in src/pkg/kube/util.go:

* `syncMachines` (the Node Reconciler, spec name Reconcile),
* `createAwsSpotInstance` (spot provisioning, spec name RequestSpotCapacity),
* `getAwsSpotPrices` (pricing lookup, spec name SpotPriceHistory).

Go maps (`map[string]*model.Machine`) are embedded as association lists with
`lookupM` / `insertM`; Go `nil` pointers and optional fields become `Option`;
the fallible remote collaborators (EC2 client construction, DescribeInstances,
RequestSpotInstances, DescribeSpotPriceHistory) are supplied as explicit
environment records whose fields return `Except GoErr`.  The detached
completion goroutine of `createAwsSpotInstance` communicates only through
logs and tagging side effects and is outside the synchronous path modelled
here.
-/

/-- A Go `error` value, reduced to its message.  `errors.Wrap(err, msg)`
produces the message `msg ++ ": " ++ err.Error()`. -/
structure GoErr where
  msg : String
deriving DecidableEq, Repr

/-- Embedding of `errors.Wrap(e, m)` from github.com/pkg/errors. -/
def wrapErr (m : String) (e : GoErr) : GoErr :=
  ⟨m ++ ": " ++ e.msg⟩

/-- Modelled from the spec: `sgerrors.ErrInvalidCredentials` (package
pkg/sgerrors is not under src/); only its identity matters. -/
def errInvalidCredentials : GoErr := ⟨"invalid credentials"⟩

/-- Modelled from the spec: the machine role enumeration of pkg/model (not
under src/).  `node` is the worker role (`model.RoleNode`). -/
inductive Role where
  | master
  | node
deriving DecidableEq, Repr

/-- Modelled from the spec: the machine lifecycle states of pkg/model (not
under src/); the spec names provisioning, active and deleted. -/
inductive MachineState where
  | provisioning
  | active
  | deleted
deriving DecidableEq, Repr

/-- Modelled from the spec: `model.Machine` (pkg/model is not under src/),
with exactly the fields read or written by src/pkg/kube/util.go.  Absent
optional IPs are the empty string, as for Go zero values. -/
structure Machine where
  name : String
  role : Role
  state : MachineState
  size : String
  region : String
  privateIp : String
  publicIp : String
deriving DecidableEq, Repr

/-- A Go `map[string]*model.Machine`, embedded as an association list. -/
abbrev NodeMap := List (String × Machine)

/-- Go map read `m[n]`: `some` the bound machine, `none` when absent
(the `nil` pointer compared against in `k.Masters[node.Name] == nil`). -/
def lookupM : NodeMap → String → Option Machine
  | [], _ => none
  | (k, v) :: rest, n => if k = n then some v else lookupM rest n

/-- Go map write `m[n] = v`: replaces an existing binding in place,
otherwise appends. -/
def insertM : NodeMap → String → Machine → NodeMap
  | [], n, v => [(n, v)]
  | (k, w) :: rest, n, v =>
    if k = n then (k, v) :: rest else (k, w) :: insertM rest n v

/-- Representation invariant of a Go map: no duplicate keys. -/
def nodupKeys (m : NodeMap) : Prop := (m.map Prod.fst).Nodup

instance (m : NodeMap) : Decidable (nodupKeys m) := by
  unfold nodupKeys; infer_instance

/-- Modelled from the spec: `model.Kube` (pkg/model is not under src/), with
the fields read or written by `syncMachines`: identity, region and the two
node maps keyed by node name. -/
structure Kube where
  id : String
  name : String
  region : String
  masters : NodeMap
  nodes : NodeMap
deriving DecidableEq, Repr

/-- Modelled from the spec: `clouds.TagClusterID` (package pkg/clouds is not
under src/): the tag key filtering inventory by cluster identity.  Its exact
value is immaterial to every theorem below. -/
def tagClusterID : String := "ClusterID"

/-- Modelled from the spec: `clouds.TagNodeName` (package pkg/clouds is not
under src/): the tag key carrying a node's assigned name. -/
def tagNodeName : String := "Name"

/-- An `ec2.Tag`: the key pointer may be `nil` (checked by the source before
dereferencing); the value is dereferenced unconditionally. -/
structure Ec2Tag where
  key : Option String
  value : String
deriving DecidableEq, Repr

/-- An `ec2.Instance` as consumed by `syncMachines`: instance type (always
dereferenced), optional state code (`instance.State`/`State.Code` collapsed
into one option), optional public and private IPs, and the tag list. -/
structure Instance where
  instanceType : String
  stateCode : Option Int
  publicIp : Option String
  privateIp : Option String
  tags : List Ec2Tag
deriving DecidableEq, Repr

/-- An `ec2.Reservation`: a group of instances. -/
structure Reservation where
  instances : List Instance
deriving DecidableEq, Repr

/-- The `DescribeInstancesInput` built by `syncMachines`: one filter on the
cluster-identity tag. -/
structure DescribeInstancesInput where
  filterName : String
  filterValues : List String
deriving DecidableEq, Repr

/-- The name-extraction loop of `syncMachines` (lines 143-147): the last tag
whose (non-nil) key equals `tagNodeName` wins; the zero value is `""`. -/
def derivedName (tags : List Ec2Tag) : String :=
  tags.foldl (fun acc tag => if tag.key = some tagNodeName then tag.value else acc) ""

/-- The machine built for one observed instance (lines 128-147): worker role,
active state, the cluster's region, IPs defaulted to `""` when absent, name
from the node-name tag. -/
def machineOf (k : Kube) (i : Instance) : Machine :=
  { name := derivedName i.tags
    role := Role.node
    state := MachineState.active
    size := i.instanceType
    region := k.region
    privateIp := i.privateIp.getD ""
    publicIp := i.publicIp.getD "" }

/-- The known-ness scan of `syncMachines` (lines 149-155): `true` iff the
instance has a private IP and some machine already in `Nodes` carries the
same private IP. -/
def isFound (nodes : NodeMap) (i : Instance) : Bool :=
  nodes.any fun p =>
    match i.privateIp with
    | some ip => p.2.privateIp = ip
    | none => false

/-- The state extraction of `syncMachines` (lines 157-161): the instance's
state code, defaulting to `0` when absent. -/
def extractedState (i : Instance) : Int :=
  i.stateCode.getD 0

/-- The merge gate of line 164: the instance is not known by IP, its derived
name is absent from `Masters`, and its extracted state code is the running
code 16. -/
def mergeGate (k : Kube) (i : Instance) : Prop :=
  isFound k.nodes i = false ∧ lookupM k.masters (derivedName i.tags) = none ∧
    extractedState i = 16

instance (k : Kube) (i : Instance) : Decidable (mergeGate k i) := by
  unfold mergeGate; infer_instance

/-- The per-instance body of the reconciliation loop (lines 126-167): build
the machine, and insert it into `Nodes` under its derived name exactly when
the merge gate holds. -/
def syncStep (k : Kube) (i : Instance) : Kube :=
  if mergeGate k i then
    { k with nodes := insertM k.nodes (derivedName i.tags) (machineOf k i) }
  else
    k

/-- The reconciliation loop over a flat list of observed instances. -/
def syncLoop (k : Kube) (insts : List Instance) : Kube :=
  insts.foldl syncStep k

/-- Environment of `syncMachines`: outcomes of the three fallible
collaborator calls (credential fill, EC2 client construction, inventory
query). -/
structure SyncEnv where
  fillCredentials : Except GoErr Unit
  getEC2 : Except GoErr Unit
  describeInstances : DescribeInstancesInput → Except GoErr (List Reservation)

/-- The inventory query input built by `syncMachines` (lines 113-120). -/
def describeInput (k : Kube) : DescribeInstancesInput :=
  { filterName := "tag:" ++ tagClusterID, filterValues := [k.id] }

/-- Embedding of `syncMachines` (src/pkg/kube/util.go lines 100-172,
spec name Reconcile): fill credentials, build the EC2 client, query the
inventory, then run the merge loop over every instance of every
reservation; always returns success once the inventory was obtained. -/
def syncMachines (env : SyncEnv) (k : Kube) : Except GoErr Kube :=
  match env.fillCredentials with
  | Except.error e => Except.error (wrapErr "error fill cloud account credentials" e)
  | Except.ok _ =>
    match env.getEC2 with
    | Except.error e => Except.error (wrapErr e.msg errInvalidCredentials)
    | Except.ok _ =>
      match env.describeInstances (describeInput k) with
      | Except.error e => Except.error (wrapErr "describe instances" e)
      | Except.ok reservations =>
        Except.ok (reservations.foldl (fun kk res => res.instances.foldl syncStep kk) k)

/-! ## Spot provisioning and pricing (lines 174-341) -/

/-- Digit run of `strconv.ParseInt` base 10: `some` the value when the run is
non-empty and all characters are decimal digits. -/
def decDigitsVal : List Char → Option Nat
  | [] => none
  | cs =>
    if cs.all (fun c => '0' ≤ c ∧ c ≤ '9') then
      some (cs.foldl (fun acc c => acc * 10 + (c.toNat - '0'.toNat)) 0)
    else
      none

/-- Embedding of `strconv.ParseInt(s, 10, 64)`: optional sign, a non-empty
run of decimal digits, and an int64 range check; `none` on any syntax or
range error. -/
def goParseInt64 (s : String) : Option Int :=
  match s.data with
  | '+' :: rest =>
    (decDigitsVal rest).bind fun n =>
      if n ≤ 2 ^ 63 - 1 then some (Int.ofNat n) else none
  | '-' :: rest =>
    (decDigitsVal rest).bind fun n =>
      if n ≤ 2 ^ 63 then some (-(Int.ofNat n)) else none
  | cs =>
    (decDigitsVal cs).bind fun n =>
      if n ≤ 2 ^ 63 - 1 then some (Int.ofNat n) else none

/-- The standard base64 alphabet. -/
def base64Alphabet : List Char :=
  "ABCDEFGHIJKLMNOPQRSTUVWXYZabcdefghijklmnopqrstuvwxyz0123456789+/".data

/-- One base64 output character for a 6-bit group. -/
def base64Char (n : Nat) : Char := base64Alphabet.getD n 'A'

/-- Embedding of `base64.StdEncoding.EncodeToString` over a byte list. -/
def base64Encode : List Nat → String
  | [] => ""
  | [a] =>
    String.mk [base64Char (a / 4), base64Char (a % 4 * 16), '=', '=']
  | [a, b] =>
    String.mk [base64Char (a / 4), base64Char (a % 4 * 16 + b / 16),
      base64Char (b % 16 * 4), '=']
  | a :: b :: c :: rest =>
    String.mk [base64Char (a / 4), base64Char (a % 4 * 16 + b / 16),
      base64Char (b % 16 * 4 + c / 64), base64Char (c % 64)] ++
      base64Encode rest

/-- UTF-8 bytes of a string, as naturals. -/
def stringBytes (s : String) : List Nat :=
  s.toUTF8.toList.map UInt8.toNat

/-- Modelled from the spec: the cloud providers of pkg/clouds (not under
src/); only AWS has registered spot support. -/
inductive Provider where
  | aws
  | digitalocean
  | gce
deriving DecidableEq, Repr

/-- Modelled from the spec: the AWS part of `steps.Config` (package
pkg/workflows/steps is not under src/), restricted to the fields read or
written by src/pkg/kube/util.go.  `subnets` is the availability-zone → subnet
map; a missing zone yields the Go zero value `""`. -/
structure AWSConfig where
  region : String
  availabilityZone : String
  instanceType : String
  volumeSize : String
  nodesInstanceProfile : String
  subnets : List (String × String)
  nodesSecurityGroupID : String
  imageID : String
  keyPairName : String
deriving DecidableEq, Repr

/-- Go read of a `map[string]string`: the zero value `""` when absent. -/
def lookupS (m : List (String × String)) (n : String) : String :=
  match m with
  | [] => ""
  | (k, v) :: rest => if k = n then v else lookupS rest n

/-- Modelled from the spec: the provisioning configuration aggregate
(`steps.Config`, not under src/), restricted to the fields read by
src/pkg/kube/util.go. -/
structure Config where
  provider : Provider
  awsConfig : AWSConfig
  configMapData : String
  dryRun : Bool
  kubeName : String
  kubeID : String
  isMaster : Bool
deriving DecidableEq, Repr

/-- Modelled from the spec: the spot-capacity intent (`SpotRequest`, declared
elsewhere in pkg/kube, not under src/): machine type, bid price, availability
zone and desired count. -/
structure SpotRequest where
  machineType : String
  spotPrice : String
  availabilityZone : String
  machineCount : Int
deriving DecidableEq, Repr

/-- The `ec2.EbsBlockDevice` of the root block device mapping. -/
structure EbsBlockDevice where
  deleteOnTermination : Bool
  volumeType : String
  volumeSize : Int
deriving DecidableEq, Repr

/-- One `ec2.BlockDeviceMapping`. -/
structure BlockDeviceMapping where
  deviceName : String
  ebs : EbsBlockDevice
deriving DecidableEq, Repr

/-- The `ec2.RequestSpotLaunchSpecification` built at lines 208-229. -/
structure SpotLaunchSpecification where
  iamInstanceProfile : String
  subnetId : String
  securityGroupIds : List String
  imageId : String
  instanceType : String
  keyName : String
  blockDeviceMappings : List BlockDeviceMapping
  userData : String
deriving DecidableEq, Repr

/-- The `ec2.RequestSpotInstancesInput` built at lines 206-237; the validity
window is kept as absolute timestamps in seconds. -/
structure RequestSpotInstancesInput where
  requestType : String
  launchSpecification : SpotLaunchSpecification
  spotPrice : String
  clientToken : String
  instanceCount : Int
  dryRun : Bool
  validFrom : Int
  validUntil : Int
deriving DecidableEq, Repr

/-- Result of a successful spot submission: the provider-assigned request
identifiers (consumed only by the detached completion task). -/
structure SpotSubmitResult where
  requestIds : List String
deriving DecidableEq, Repr

/-- Environment of `createAwsSpotInstance`: EC2 client construction, the
spot-submission behaviour, the wall clock and the random client token. -/
structure SpotEnv where
  getEC2 : Except GoErr Unit
  requestSpotInstances : RequestSpotInstancesInput → Except GoErr SpotSubmitResult
  now : Int
  uuid : String

/-- Outcome of the synchronous portion of `createAwsSpotInstance`: the
returned error value and how many times `RequestSpotInstances` was invoked. -/
structure SpotCallOutcome where
  result : Except GoErr Unit
  submitCalls : Nat
deriving Repr

/-- The spot request input built at lines 206-237 from the parsed volume
size, the intent and the configuration. -/
def buildSpotInput (env : SpotEnv) (req : SpotRequest) (config : Config)
    (volumeSize : Int) : RequestSpotInstancesInput :=
  { requestType := "persistent"
    launchSpecification :=
      { iamInstanceProfile := config.awsConfig.nodesInstanceProfile
        subnetId := lookupS config.awsConfig.subnets req.availabilityZone
        securityGroupIds := [config.awsConfig.nodesSecurityGroupID]
        imageId := config.awsConfig.imageID
        instanceType := req.machineType
        keyName := config.awsConfig.keyPairName
        blockDeviceMappings :=
          [{ deviceName := "/dev/sda1"
             ebs := { deleteOnTermination := false, volumeType := "gp2",
                      volumeSize := volumeSize } }]
        userData := base64Encode (stringBytes ("#!/bin/sh\n" ++ config.configMapData)) }
    spotPrice := req.spotPrice
    clientToken := env.uuid
    instanceCount := req.machineCount
    dryRun := config.dryRun
    validFrom := env.now + 10
    validUntil := env.now + 24 * 365 * 3600 }

/-- Embedding of the synchronous portion of `createAwsSpotInstance`
(src/pkg/kube/util.go lines 192-315, spec name RequestSpotCapacity): build
the client, parse the volume size, build and submit the persistent spot
request; returns the error outcome together with the number of submission
calls made.  The detached completion goroutine (lines 249-312) has no
channel back to the caller and is not part of this synchronous path. -/
def createAwsSpotInstance (env : SpotEnv) (req : SpotRequest) (config : Config) :
    SpotCallOutcome :=
  match env.getEC2 with
  | Except.error e =>
    { result := Except.error (wrapErr "get EC2 client" e), submitCalls := 0 }
  | Except.ok _ =>
    match goParseInt64 config.awsConfig.volumeSize with
    | none =>
      { result := Except.error
          (wrapErr ("parse volume size " ++ config.awsConfig.volumeSize)
            ⟨"invalid syntax"⟩)
        submitCalls := 0 }
    | some volumeSize =>
      let input := buildSpotInput env req config volumeSize
      match env.requestSpotInstances input with
      | Except.error e =>
        { result := Except.error (wrapErr "request spot instance" e), submitCalls := 1 }
      | Except.ok _ =>
        { result := Except.ok (), submitCalls := 1 }

/-- Embedding of `createSpotInstance` (lines 174-181): only AWS has a
registered spot-request builder. -/
def createSpotInstance (env : SpotEnv) (req : SpotRequest) (config : Config) :
    SpotCallOutcome :=
  match config.provider with
  | Provider.aws => createAwsSpotInstance env req config
  | _ => { result := Except.error ⟨"unsupported provider"⟩, submitCalls := 0 }

/-- One entry of the spot price history. -/
structure PriceEntry where
  productDescription : String
  spotPrice : String
deriving DecidableEq, Repr

/-- The `ec2.DescribeSpotPriceHistoryInput` built at lines 324-329; the
trailing 7-day window is kept as absolute timestamps in seconds. -/
structure PriceHistoryInput where
  availabilityZone : String
  endTime : Int
  startTime : Int
  instanceTypes : List String
deriving DecidableEq, Repr

/-- Environment of `getAwsSpotPrices`: EC2 client construction, the
price-history query behaviour and the wall clock. -/
structure PricingEnv where
  getEC2 : Except GoErr Unit
  describeSpotPriceHistory : PriceHistoryInput → Except GoErr (List PriceEntry)
  now : Int

/-- ASCII lower-casing, the relevant fragment of Go case folding for the
all-ASCII comparison string of `getAwsSpotPrices`. -/
def toLowerAscii (c : Char) : Char :=
  if 'A' ≤ c ∧ c ≤ 'Z' then Char.ofNat (c.toNat + 32) else c

/-- Embedding of `strings.EqualFold` restricted to ASCII case folding. -/
def equalFold (a b : String) : Bool :=
  a.data.map toLowerAscii = b.data.map toLowerAscii

/-- The price-history query input built at lines 324-329. -/
def priceHistoryInput (env : PricingEnv) (machineType : String) (config : Config) :
    PriceHistoryInput :=
  { availabilityZone := config.awsConfig.availabilityZone
    endTime := env.now
    startTime := env.now - 24 * 7 * 3600
    instanceTypes := [machineType] }

/-- Embedding of `getAwsSpotPrices` (src/pkg/kube/util.go lines 317-341,
spec name SpotPriceHistory): build the client, query the 7-day history with
the error discarded (`prices, _ := ...`; on error the SDK returns an
allocated empty output, so the history is empty), then collect the prices of
the entries whose product description case-folds to "Linux/UNIX". -/
def getAwsSpotPrices (env : PricingEnv) (machineType : String) (config : Config) :
    Except GoErr (List String) :=
  match env.getEC2 with
  | Except.error e => Except.error (wrapErr "get EC2 client" e)
  | Except.ok _ =>
    let history :=
      match env.describeSpotPriceHistory (priceHistoryInput env machineType config) with
      | Except.ok out => out
      | Except.error _ => []
    Except.ok (history.foldl
      (fun acc p =>
        if equalFold p.productDescription "Linux/UNIX" then acc ++ [p.spotPrice]
        else acc) [])

/-- Embedding of `getSpotPrices` (lines 183-190): only AWS is supported. -/
def getSpotPrices (env : PricingEnv) (machineType : String) (config : Config) :
    Except GoErr (List String) :=
  match config.provider with
  | Provider.aws => getAwsSpotPrices env machineType config
  | _ => Except.error ⟨"unsupported provider"⟩

/-! ## Map lemmas -/

theorem lookupM_insertM_eq (m : NodeMap) (n : String) (v : Machine) :
    lookupM (insertM m n v) n = some v := by
  induction m with
  | nil => simp [insertM, lookupM]
  | cons hd tl ih =>
    obtain ⟨k, w⟩ := hd
    by_cases h : k = n
    · simp [insertM, lookupM, h]
    · simp [insertM, lookupM, h, ih]

theorem lookupM_insertM_ne (m : NodeMap) (n n' : String) (v : Machine)
    (h : n' ≠ n) : lookupM (insertM m n v) n' = lookupM m n' := by
  have hne : n ≠ n' := fun hh => h hh.symm
  induction m with
  | nil => simp only [insertM, lookupM, if_neg hne]
  | cons hd tl ih =>
    obtain ⟨k, w⟩ := hd
    by_cases hk : k = n
    · subst hk
      simp only [insertM, if_pos rfl, lookupM, if_neg hne]
    · simp only [insertM, if_neg hk]
      by_cases hk' : k = n'
      · simp only [lookupM, if_pos hk']
      · simp only [lookupM, if_neg hk', ih]

theorem insertM_lookup_self (m : NodeMap) (n : String) (v : Machine)
    (h : lookupM m n = some v) : insertM m n v = m := by
  induction m with
  | nil => simp [lookupM] at h
  | cons hd tl ih =>
    obtain ⟨k, w⟩ := hd
    by_cases hk : k = n
    · subst hk
      simp [lookupM] at h
      simp [insertM, h]
    · simp [lookupM, hk] at h
      simp [insertM, hk, ih h]

theorem mem_insertM {m : NodeMap} {n a : String} {v b : Machine}
    (h : (a, b) ∈ insertM m n v) : (a, b) ∈ m ∨ a = n := by
  induction m with
  | nil =>
    simp only [insertM, List.mem_singleton] at h
    right
    exact congrArg Prod.fst h
  | cons hd tl ih =>
    obtain ⟨k, w⟩ := hd
    by_cases hk : k = n
    · subst hk
      simp only [insertM, if_pos rfl] at h
      rcases List.mem_cons.mp h with h2 | h2
      · right; exact congrArg Prod.fst h2
      · left; exact List.mem_cons_of_mem _ h2
    · simp only [insertM, if_neg hk] at h
      rcases List.mem_cons.mp h with h2 | h2
      · left; exact h2 ▸ List.mem_cons_self _ _
      · rcases ih h2 with h3 | h3
        · left; exact List.mem_cons_of_mem _ h3
        · right; exact h3

theorem mem_of_lookupM {m : NodeMap} {n : String} {v : Machine}
    (h : lookupM m n = some v) : (n, v) ∈ m := by
  induction m with
  | nil => simp [lookupM] at h
  | cons hd tl ih =>
    obtain ⟨k, w⟩ := hd
    by_cases hk : k = n
    · subst hk
      simp [lookupM] at h
      simp [h]
    · simp [lookupM, hk] at h
      simp [ih h]

theorem lookupM_of_mem_nodup {m : NodeMap} {n : String} {v : Machine}
    (hnd : nodupKeys m) (h : (n, v) ∈ m) : lookupM m n = some v := by
  induction m with
  | nil => simp at h
  | cons hd tl ih =>
    obtain ⟨k, w⟩ := hd
    simp only [nodupKeys, List.map_cons, List.nodup_cons] at hnd
    rcases List.mem_cons.mp h with h1 | h1
    · obtain ⟨hk, hv⟩ := Prod.mk.injEq .. ▸ h1
      simp_all [lookupM]
    · have hne : k ≠ n := by
        intro hkn
        subst hkn
        exact hnd.1 (List.mem_map.mpr ⟨(k, v), h1, rfl⟩)
      simp [lookupM, hne, ih hnd.2 h1]

theorem nodupKeys_insertM (m : NodeMap) (n : String) (v : Machine)
    (h : nodupKeys m) : nodupKeys (insertM m n v) := by
  induction m with
  | nil => simp [insertM, nodupKeys]
  | cons hd tl ih =>
    obtain ⟨k, w⟩ := hd
    simp only [nodupKeys, List.map_cons, List.nodup_cons] at h
    by_cases hk : k = n
    · subst hk
      simpa [insertM, nodupKeys] using h
    · have htl := ih h.2
      simp only [insertM, if_neg hk, nodupKeys, List.map_cons, List.nodup_cons]
      refine ⟨?_, htl⟩
      intro hmem
      rcases List.mem_map.mp hmem with ⟨⟨a, b⟩, hab, hfst⟩
      rcases mem_insertM hab with h2 | h2
      · exact h.1 (hfst ▸ List.mem_map.mpr ⟨(a, b), h2, rfl⟩)
      · exact hk (hfst ▸ h2)

/-- The known-ness scan, characterised: some machine of the worker map has
the instance's private IP. -/
theorem isFound_iff_exists (nodes : NodeMap) (i : Instance) :
    isFound nodes i = true ↔
      ∃ pr ∈ nodes, i.privateIp = some pr.2.privateIp := by
  unfold isFound
  rw [List.any_eq_true]
  constructor
  · rintro ⟨pr, hmem, hp⟩
    refine ⟨pr, hmem, ?_⟩
    cases hip : i.privateIp with
    | none => rw [hip] at hp; simp at hp
    | some ip =>
      rw [hip] at hp
      simp only [decide_eq_true_eq] at hp
      rw [hp]
  · rintro ⟨pr, hmem, hp⟩
    refine ⟨pr, hmem, ?_⟩
    rw [hp]
    simp

/-! ## Reconciler frame and persistence lemmas -/

theorem syncStep_masters (k : Kube) (i : Instance) :
    (syncStep k i).masters = k.masters := by
  unfold syncStep
  split <;> rfl

theorem syncStep_id (k : Kube) (i : Instance) : (syncStep k i).id = k.id := by
  unfold syncStep
  split <;> rfl

theorem syncStep_name (k : Kube) (i : Instance) : (syncStep k i).name = k.name := by
  unfold syncStep
  split <;> rfl

theorem syncStep_region (k : Kube) (i : Instance) :
    (syncStep k i).region = k.region := by
  unfold syncStep
  split <;> rfl

theorem syncLoop_masters (k : Kube) (l : List Instance) :
    (syncLoop k l).masters = k.masters := by
  induction l generalizing k with
  | nil => rfl
  | cons i tl ih => rw [syncLoop, List.foldl_cons, ← syncLoop, ih, syncStep_masters]

theorem syncLoop_id (k : Kube) (l : List Instance) : (syncLoop k l).id = k.id := by
  induction l generalizing k with
  | nil => rfl
  | cons i tl ih => rw [syncLoop, List.foldl_cons, ← syncLoop, ih, syncStep_id]

theorem syncLoop_name (k : Kube) (l : List Instance) :
    (syncLoop k l).name = k.name := by
  induction l generalizing k with
  | nil => rfl
  | cons i tl ih => rw [syncLoop, List.foldl_cons, ← syncLoop, ih, syncStep_name]

theorem syncLoop_region (k : Kube) (l : List Instance) :
    (syncLoop k l).region = k.region := by
  induction l generalizing k with
  | nil => rfl
  | cons i tl ih => rw [syncLoop, List.foldl_cons, ← syncLoop, ih, syncStep_region]

/-- A step writes at most the derived name of its instance: every other key
of the worker map reads unchanged. -/
theorem lookupM_syncStep_ne (k : Kube) (i : Instance) (n : String)
    (h : derivedName i.tags ≠ n) :
    lookupM (syncStep k i).nodes n = lookupM k.nodes n := by
  unfold syncStep
  split
  · exact lookupM_insertM_ne _ _ _ _ (fun hh => h hh.symm)
  · rfl

/-- Keys whose name no instance of the list derives are untouched by the
whole loop. -/
theorem lookupM_syncLoop_ne (k : Kube) (l : List Instance) (n : String)
    (h : ∀ i ∈ l, derivedName i.tags ≠ n) :
    lookupM (syncLoop k l).nodes n = lookupM k.nodes n := by
  induction l generalizing k with
  | nil => rfl
  | cons i tl ih =>
    rw [syncLoop, List.foldl_cons, ← syncLoop,
      ih _ (fun j hj => h j (List.mem_cons_of_mem _ hj)),
      lookupM_syncStep_ne _ _ _ (h i (List.mem_cons_self _ _))]

/-- A step never deletes a worker entry. -/
theorem syncStep_no_delete (k : Kube) (i : Instance) (n : String) (m : Machine)
    (h : lookupM k.nodes n = some m) :
    ∃ m', lookupM (syncStep k i).nodes n = some m' := by
  unfold syncStep
  split
  · by_cases hn : derivedName i.tags = n
    · subst hn
      exact ⟨_, lookupM_insertM_eq _ _ _⟩
    · rw [lookupM_insertM_ne _ _ _ _ (fun hh => hn hh.symm)]
      exact ⟨m, h⟩
  · exact ⟨m, h⟩

/-- The loop never deletes a worker entry. -/
theorem syncLoop_no_delete (k : Kube) (l : List Instance) (n : String)
    (m : Machine) (h : lookupM k.nodes n = some m) :
    ∃ m', lookupM (syncLoop k l).nodes n = some m' := by
  induction l generalizing k m with
  | nil => exact ⟨m, h⟩
  | cons i tl ih =>
    rw [syncLoop, List.foldl_cons, ← syncLoop]
    obtain ⟨m', hm'⟩ := syncStep_no_delete k i n m h
    exact ih _ m' hm'

/-- A step preserves the no-duplicate-keys map invariant. -/
theorem nodupKeys_syncStep (k : Kube) (i : Instance) (h : nodupKeys k.nodes) :
    nodupKeys (syncStep k i).nodes := by
  unfold syncStep
  split
  · exact nodupKeys_insertM _ _ _ h
  · exact h

/-- The loop preserves the no-duplicate-keys map invariant. -/
theorem nodupKeys_syncLoop (k : Kube) (l : List Instance) (h : nodupKeys k.nodes) :
    nodupKeys (syncLoop k l).nodes := by
  induction l generalizing k with
  | nil => exact h
  | cons i tl ih =>
    rw [syncLoop, List.foldl_cons, ← syncLoop]
    exact ih _ (nodupKeys_syncStep k i h)

/-- The flattened inventory of a reservation list (the nested loop of
lines 126-127 visits exactly these instances, in this order). -/
def allInstances : List Reservation → List Instance
  | [] => []
  | r :: rs => r.instances ++ allInstances rs

/-- The nested reservation/instance loop of `syncMachines` is the flat loop
over all instances. -/
theorem nestedFold_eq_syncLoop (rs : List Reservation) (k : Kube) :
    rs.foldl (fun kk res => res.instances.foldl syncStep kk) k =
      syncLoop k (allInstances rs) := by
  induction rs generalizing k with
  | nil => rfl
  | cons r rs' ih =>
    rw [List.foldl_cons, ih, allInstances]
    unfold syncLoop
    rw [List.foldl_append]

/-- On a fully successful environment, syncMachines is the flat merge loop. -/
theorem syncMachines_ok (env : SyncEnv) (k : Kube) (rs : List Reservation)
    (hc : env.fillCredentials = Except.ok ()) (he : env.getEC2 = Except.ok ())
    (hd : env.describeInstances (describeInput k) = Except.ok rs) :
    syncMachines env k = Except.ok (syncLoop k (allInstances rs)) := by
  unfold syncMachines
  rw [hc, he, hd]
  exact congrArg Except.ok (nestedFold_eq_syncLoop rs k)

/-! ## Idempotence of the merge loop -/

/-- A step whose gate holds inserts the built machine. -/
theorem syncStep_merge (k : Kube) (i : Instance) (h : mergeGate k i) :
    syncStep k i =
      { k with nodes := insertM k.nodes (derivedName i.tags) (machineOf k i) } := by
  unfold syncStep
  rw [if_pos h]

/-- A step whose gate fails is the identity. -/
theorem syncStep_skip (k : Kube) (i : Instance) (h : ¬mergeGate k i) :
    syncStep k i = k := by
  unfold syncStep
  rw [if_neg h]

/-- Case analysis on one merge step: either the gate holds and the machine is
inserted, or the step leaves the cluster untouched. -/
theorem syncStep_cases (k : Kube) (i : Instance) :
    (syncStep k i =
        { k with nodes := insertM k.nodes (derivedName i.tags) (machineOf k i) } ∧
      mergeGate k i) ∨
    (syncStep k i = k ∧ ¬mergeGate k i) := by
  by_cases h : mergeGate k i
  · exact Or.inl ⟨syncStep_merge k i h, h⟩
  · exact Or.inr ⟨syncStep_skip k i h, h⟩

/-- An instance without a private IP is never found. -/
theorem isFound_of_none (nodes : NodeMap) (i : Instance)
    (h : i.privateIp = none) : isFound nodes i = false := by
  unfold isFound
  rw [List.any_eq_false]
  intro p _
  rw [h]
  simp

/-- Known-ness persists through the loop when the loop only writes fresh
names: an IP visible in a well-formed worker map stays visible. -/
theorem isFound_syncLoop (k : Kube) (l : List Instance) (i : Instance)
    (hnd : nodupKeys k.nodes)
    (hfresh : ∀ j ∈ l, lookupM k.nodes (derivedName j.tags) = none)
    (hf : isFound k.nodes i = true) : isFound (syncLoop k l).nodes i = true := by
  obtain ⟨⟨n', v⟩, hmem, hip⟩ := (isFound_iff_exists _ _).mp hf
  have hlook : lookupM k.nodes n' = some v := lookupM_of_mem_nodup hnd hmem
  have hne : ∀ j ∈ l, derivedName j.tags ≠ n' := by
    intro j hj hEq
    have hj' := hfresh j hj
    rw [hEq, hlook] at hj'
    exact Option.noConfusion hj'
  have hlook' : lookupM (syncLoop k l).nodes n' = some v :=
    (lookupM_syncLoop_ne k l n' hne).trans hlook
  exact (isFound_iff_exists _ _).mpr ⟨(n', v), mem_of_lookupM hlook', hip⟩

/-- Idempotence of the merge loop, under the conditions that make a second
pass a no-op: the observed instances derive pairwise distinct names, none of
which is already a key of the (well-formed) worker map. -/
theorem syncLoop_idem (l : List Instance) (k : Kube)
    (hnames : (l.map fun i => derivedName i.tags).Nodup)
    (hfresh : ∀ i ∈ l, lookupM k.nodes (derivedName i.tags) = none)
    (hnd : nodupKeys k.nodes) :
    syncLoop (syncLoop k l) l = syncLoop k l := by
  induction l generalizing k with
  | nil => rfl
  | cons i tl ih =>
    rw [List.map_cons, List.nodup_cons] at hnames
    have hni : ∀ j ∈ tl, derivedName j.tags ≠ derivedName i.tags := by
      intro j hj hEq
      exact hnames.1 (hEq ▸ List.mem_map.mpr ⟨j, hj, rfl⟩)
    rcases syncStep_cases k i with ⟨hEq, hf, hm, hs⟩ | ⟨hEq, hncond⟩
    ·  -- the gate held at `k`: the machine was inserted
      have hfresh' : ∀ j ∈ tl,
          lookupM (syncStep k i).nodes (derivedName j.tags) = none := by
        intro j hj
        rw [hEq]
        exact (lookupM_insertM_ne _ _ _ _ (hni j hj)).trans
          (hfresh j (List.mem_cons_of_mem _ hj))
      have hnd' : nodupKeys (syncStep k i).nodes := nodupKeys_syncStep k i hnd
      have hIH := ih (syncStep k i) hnames.2 hfresh' hnd'
      have hlook : lookupM (syncLoop (syncStep k i) tl).nodes (derivedName i.tags) =
          some (machineOf k i) := by
        rw [lookupM_syncLoop_ne _ _ _ hni, hEq]
        exact lookupM_insertM_eq _ _ _
      have hmachine : machineOf (syncLoop (syncStep k i) tl) i = machineOf k i := by
        unfold machineOf
        rw [syncLoop_region, syncStep_region]
      have hfix : syncStep (syncLoop (syncStep k i) tl) i =
          syncLoop (syncStep k i) tl := by
        cases hip : i.privateIp with
        | some ip =>
          have hfound : isFound (syncLoop (syncStep k i) tl).nodes i = true := by
            refine (isFound_iff_exists _ _).mpr
              ⟨(derivedName i.tags, machineOf k i), mem_of_lookupM hlook, ?_⟩
            rw [hip]
            unfold machineOf
            rw [hip]
            rfl
          refine syncStep_skip _ _ ?_
          rintro ⟨h1, -, -⟩
          rw [hfound] at h1
          exact Bool.noConfusion h1
        | none =>
          have hfound : isFound (syncLoop (syncStep k i) tl).nodes i = false :=
            isFound_of_none _ _ hip
          have hm' : lookupM (syncLoop (syncStep k i) tl).masters
              (derivedName i.tags) = none := by
            rw [syncLoop_masters, syncStep_masters]
            exact hm
          rw [syncStep_merge _ _ ⟨hfound, hm', hs⟩, hmachine,
            insertM_lookup_self _ _ _ hlook]
      show syncLoop (syncStep (syncLoop (syncStep k i) tl) i) tl =
        syncLoop (syncStep k i) tl
      rw [hfix, hIH]
    ·  -- the gate failed at `k`: the step was a no-op
      have hfresh' : ∀ j ∈ tl, lookupM k.nodes (derivedName j.tags) = none :=
        fun j hj => hfresh j (List.mem_cons_of_mem _ hj)
      have hIH := ih k hnames.2 hfresh' hnd
      have hfix : syncStep (syncLoop k tl) i = syncLoop k tl := by
        refine syncStep_skip _ _ ?_
        rintro ⟨h1, h2, h3⟩
        apply hncond
        refine ⟨?_, ?_, h3⟩
        · by_contra hne
          have hft : isFound k.nodes i = true := by
            cases hb : isFound k.nodes i
            · exact absurd hb hne
            · rfl
          have hft' := isFound_syncLoop k tl i hnd hfresh' hft
          rw [hft'] at h1
          exact Bool.noConfusion h1
        · rw [syncLoop_masters] at h2
          exact h2
      show syncLoop (syncStep (syncLoop (syncStep k i) tl) i) tl =
        syncLoop (syncStep k i) tl
      rw [hEq, hfix, hIH]

/-! ## Characterisation lemmas for the claim statements -/

/-- The extracted state (with its default 0) equals 16 exactly when the
instance carries the state code 16. -/
theorem extractedState_eq_sixteen (i : Instance) :
    extractedState i = 16 ↔ i.stateCode = some 16 := by
  unfold extractedState
  cases h : i.stateCode with
  | none =>
    simp only [Option.getD_none]
    constructor
    · intro h16
      exact absurd h16 (by decide)
    · intro h16
      exact Option.noConfusion h16
  | some c =>
    simp only [Option.getD_some, Option.some.injEq]

/-- The known-ness scan is false exactly when no worker machine carries the
instance's private IP. -/
theorem isFound_eq_false_iff (nodes : NodeMap) (i : Instance) :
    isFound nodes i = false ↔
      ¬∃ pr ∈ nodes, i.privateIp = some pr.2.privateIp := by
  rw [← isFound_iff_exists]
  cases isFound nodes i <;> simp

/-- Worker entries at a name tracked in `Masters` read unchanged through the
whole merge loop. -/
theorem lookupM_syncLoop_of_master (k : Kube) (insts : List Instance)
    (n : String) (m : Machine) (h : lookupM k.masters n = some m) :
    lookupM (syncLoop k insts).nodes n = lookupM k.nodes n := by
  induction insts generalizing k with
  | nil => rfl
  | cons i tl ih =>
    have hm' : lookupM (syncStep k i).masters n = some m := by
      rw [syncStep_masters]; exact h
    have hstep : lookupM (syncStep k i).nodes n = lookupM k.nodes n := by
      rcases syncStep_cases k i with ⟨hEq, -, hmast, -⟩ | ⟨hEq, -⟩
      · rw [hEq]
        refine lookupM_insertM_ne _ _ _ _ ?_
        intro hEq2
        rw [← hEq2] at hmast
        exact Option.noConfusion (h.symm.trans hmast)
      · rw [hEq]
    show lookupM (syncLoop (syncStep k i) tl).nodes n = lookupM k.nodes n
    rw [ih _ hm', hstep]

/-- Every worker entry after the loop is either an untouched pre-existing
entry or a machine the loop built: worker role, active state, the cluster's
region. -/
theorem syncLoop_entry_shape (insts : List Instance) (k : Kube) (n : String)
    (m : Machine) (h : lookupM (syncLoop k insts).nodes n = some m) :
    lookupM k.nodes n = some m ∨
      (m.role = Role.node ∧ m.state = MachineState.active ∧ m.region = k.region) := by
  induction insts generalizing k with
  | nil => exact Or.inl h
  | cons i tl ih =>
    have h' : lookupM (syncLoop (syncStep k i) tl).nodes n = some m := h
    rcases ih (syncStep k i) h' with h2 | h2
    · rcases syncStep_cases k i with ⟨hEq, -⟩ | ⟨hEq, -⟩
      · rw [hEq] at h2
        by_cases hn : derivedName i.tags = n
        · subst hn
          rw [lookupM_insertM_eq] at h2
          right
          rw [← Option.some_inj.mp h2]
          exact ⟨rfl, rfl, rfl⟩
        · rw [lookupM_insertM_ne _ _ _ _ (fun hh => hn hh.symm)] at h2
          exact Or.inl h2
      · rw [hEq] at h2
        exact Or.inl h2
    · right
      rw [syncStep_region] at h2
      exact h2

/-- The price-collecting fold of `getAwsSpotPrices` is a filter-then-project
of the history, preserving provider order. -/
theorem priceFold_eq_filter_map (l : List PriceEntry) (acc : List String) :
    l.foldl
      (fun acc p =>
        if equalFold p.productDescription "Linux/UNIX" then acc ++ [p.spotPrice]
        else acc) acc =
    acc ++ (l.filter fun p => equalFold p.productDescription "Linux/UNIX").map
      (fun p => p.spotPrice) := by
  induction l generalizing acc with
  | nil => simp
  | cons p tl ih =>
    rw [List.foldl_cons]
    by_cases hp : equalFold p.productDescription "Linux/UNIX"
    · rw [if_pos hp, ih]
      simp [List.filter_cons, hp]
    · rw [if_neg hp, ih]
      simp only [List.filter_cons]
      rw [if_neg (by simpa using hp)]

/-! ## Claim theorems -/

/-- C1: for every instance processed by Reconcile (syncMachines), the
per-instance merge body inserts it into the worker map `Nodes` (under its
derived name) if and only if no machine already in `Nodes` has the same
private IP, its derived name is not present in `Masters`, and its state code
equals the canonical running code 16; in particular an instance whose state
code is not 16 is never merged. -/
theorem reconcile_merge_policy_iff (k : Kube) (i : Instance) :
    ((¬∃ pr ∈ k.nodes, i.privateIp = some pr.2.privateIp) ∧
        lookupM k.masters (derivedName i.tags) = none ∧ i.stateCode = some 16 →
      (syncStep k i).nodes =
        insertM k.nodes (derivedName i.tags) (machineOf k i)) ∧
    (¬((¬∃ pr ∈ k.nodes, i.privateIp = some pr.2.privateIp) ∧
        lookupM k.masters (derivedName i.tags) = none ∧ i.stateCode = some 16) →
      (syncStep k i).nodes = k.nodes) ∧
    (i.stateCode ≠ some 16 → (syncStep k i).nodes = k.nodes) := by
  have hiff : mergeGate k i ↔
      ((¬∃ pr ∈ k.nodes, i.privateIp = some pr.2.privateIp) ∧
        lookupM k.masters (derivedName i.tags) = none ∧ i.stateCode = some 16) := by
    unfold mergeGate
    rw [isFound_eq_false_iff, extractedState_eq_sixteen]
  refine ⟨?_, ?_, ?_⟩
  · intro h
    rw [syncStep_merge k i (hiff.mpr h)]
  · intro h
    rw [syncStep_skip k i (fun hg => h (hiff.mp hg))]
  · intro h
    refine congrArg Kube.nodes (syncStep_skip k i ?_)
    rintro ⟨-, -, hs⟩
    exact h ((extractedState_eq_sixteen i).mp hs)

/-- Witness for C1 at a concrete running instance on an empty cluster: the
gate holds and the machine is inserted. -/
theorem reconcile_merge_policy_iff_witness :
    (syncStep { id := "c1", name := "c1", region := "r1", masters := [], nodes := [] }
        { instanceType := "m4.large", stateCode := some 16, publicIp := none,
          privateIp := some "10.0.1.5",
          tags := [{ key := some tagNodeName, value := "worker-a" }] }).nodes =
      insertM []
        (derivedName [{ key := some tagNodeName, value := "worker-a" }])
        (machineOf { id := "c1", name := "c1", region := "r1", masters := [], nodes := [] }
          { instanceType := "m4.large", stateCode := some 16, publicIp := none,
            privateIp := some "10.0.1.5",
            tags := [{ key := some tagNodeName, value := "worker-a" }] }) :=
  (reconcile_merge_policy_iff
    { id := "c1", name := "c1", region := "r1", masters := [], nodes := [] }
    { instanceType := "m4.large", stateCode := some 16, publicIp := none,
      privateIp := some "10.0.1.5",
      tags := [{ key := some tagNodeName, value := "worker-a" }] }).1 (by decide)

/-- C2: an instance whose derived node name is already a key of `Masters` is
never merged into `Nodes` by a reconciliation pass, regardless of IP overlap:
the worker entry at any master name reads exactly as before the pass. -/
theorem reconcile_master_exclusivity (env : SyncEnv) (k : Kube)
    (rs : List Reservation)
    (hc : env.fillCredentials = Except.ok ()) (he : env.getEC2 = Except.ok ())
    (hd : env.describeInstances (describeInput k) = Except.ok rs)
    (n : String) (m : Machine) (h : lookupM k.masters n = some m) :
    ∃ k', syncMachines env k = Except.ok k' ∧
      lookupM k'.nodes n = lookupM k.nodes n := by
  refine ⟨syncLoop k (allInstances rs), syncMachines_ok env k rs hc he hd, ?_⟩
  exact lookupM_syncLoop_of_master k (allInstances rs) n m h

/-- Witness for C2: a master named worker-a blocks the merge of a running
instance deriving the same name; the worker map stays empty. -/
theorem reconcile_master_exclusivity_witness :
    ∃ k', syncMachines
        { fillCredentials := Except.ok (), getEC2 := Except.ok (),
          describeInstances := fun _ => Except.ok
            [{ instances :=
                [{ instanceType := "m4.large", stateCode := some 16,
                   publicIp := none, privateIp := some "10.0.1.5",
                   tags := [{ key := some tagNodeName, value := "worker-a" }] }] }] }
        { id := "c2", name := "c2", region := "r1",
          masters := [("worker-a",
            { name := "worker-a", role := Role.master, state := MachineState.active,
              size := "m4.large", region := "r1", privateIp := "10.0.0.1",
              publicIp := "" })],
          nodes := [] } = Except.ok k' ∧
      lookupM k'.nodes "worker-a" =
        lookupM ([] : NodeMap) "worker-a" :=
  reconcile_master_exclusivity _ _ _ rfl rfl rfl "worker-a"
    { name := "worker-a", role := Role.master, state := MachineState.active,
      size := "m4.large", region := "r1", privateIp := "10.0.0.1", publicIp := "" }
    (by decide)

/-- C10: every machine Reconcile inserts into `Nodes` has the worker role,
the active lifecycle state and the cluster's region: any worker entry after
a pass is either a pre-existing entry, read unchanged, or has exactly that
shape; and no observed instance is ever classified as a master (`Masters` is
untouched). -/
theorem reconcile_inserted_machine_shape (env : SyncEnv) (k : Kube)
    (rs : List Reservation)
    (hc : env.fillCredentials = Except.ok ()) (he : env.getEC2 = Except.ok ())
    (hd : env.describeInstances (describeInput k) = Except.ok rs)
    (k' : Kube) (hk' : syncMachines env k = Except.ok k') :
    k'.masters = k.masters ∧
      ∀ n m, lookupM k'.nodes n = some m →
        lookupM k.nodes n = some m ∨
          (m.role = Role.node ∧ m.state = MachineState.active ∧
            m.region = k.region) := by
  have hok := syncMachines_ok env k rs hc he hd
  rw [hok] at hk'
  have hEq : syncLoop k (allInstances rs) = k' := Except.ok.inj hk'
  subst hEq
  exact ⟨syncLoop_masters k _, fun n m h => syncLoop_entry_shape _ k n m h⟩

/-- The machine the C10 witness scenario merges. -/
def c10Machine : Machine :=
  { name := "worker-a", role := Role.node, state := MachineState.active,
    size := "m4.large", region := "r1", privateIp := "10.0.1.5", publicIp := "" }

/-- The environment of the C10 witness scenario: one running instance. -/
def c10Env : SyncEnv :=
  { fillCredentials := Except.ok (), getEC2 := Except.ok (),
    describeInstances := fun _ => Except.ok
      [{ instances :=
          [{ instanceType := "m4.large", stateCode := some 16,
             publicIp := none, privateIp := some "10.0.1.5",
             tags := [{ key := some tagNodeName, value := "worker-a" }] }] }] }

/-- The cluster of the C10 witness scenario: empty node maps. -/
def c10Kube : Kube :=
  { id := "c10", name := "c10", region := "r1", masters := [], nodes := [] }

/-- Witness for C10: the machine merged for a concrete running instance on
an empty cluster is not pre-existing, so it has worker role, active state and
the cluster's region. -/
theorem reconcile_inserted_machine_shape_witness :
    lookupM c10Kube.nodes "worker-a" = some c10Machine ∨
      (c10Machine.role = Role.node ∧ c10Machine.state = MachineState.active ∧
        c10Machine.region = c10Kube.region) := by
  have h := reconcile_inserted_machine_shape c10Env c10Kube _ rfl rfl rfl _ rfl
  exact h.2 "worker-a" c10Machine (by decide)

/-- The initial cluster of the C3 counterexample: one worker entry keyed "B"
carrying private IP p. -/
def c3Kube : Kube :=
  { id := "c3", name := "c3", region := "r", masters := [],
    nodes := [("B",
      { name := "B", role := Role.node, state := MachineState.active,
        size := "t", region := "r", privateIp := "p", publicIp := "" })] }

/-- The fixed inventory snapshot of the C3 counterexample: instance A with
IP p, instance B with IP q, both running. -/
def c3Env : SyncEnv :=
  { fillCredentials := Except.ok (), getEC2 := Except.ok (),
    describeInstances := fun _ => Except.ok
      [{ instances :=
          [{ instanceType := "t", stateCode := some 16, publicIp := none,
             privateIp := some "p",
             tags := [{ key := some tagNodeName, value := "A" }] },
           { instanceType := "t", stateCode := some 16, publicIp := none,
             privateIp := some "q",
             tags := [{ key := some tagNodeName, value := "B" }] }] }] }

/-- The cluster after the first C3 pass: A was skipped (its IP p was visible
on the pre-existing entry), B overwrote the entry keyed "B", removing IP p
from the worker map. -/
def c3KubeOnce : Kube :=
  { id := "c3", name := "c3", region := "r", masters := [],
    nodes := [("B",
      { name := "B", role := Role.node, state := MachineState.active,
        size := "t", region := "r", privateIp := "q", publicIp := "" })] }

/-- The cluster after the second C3 pass: with IP p gone, A now merges. -/
def c3KubeTwice : Kube :=
  { id := "c3", name := "c3", region := "r", masters := [],
    nodes := [("B",
      { name := "B", role := Role.node, state := MachineState.active,
        size := "t", region := "r", privateIp := "q", publicIp := "" }),
     ("A",
      { name := "A", role := Role.node, state := MachineState.active,
        size := "t", region := "r", privateIp := "p", publicIp := "" })] }

/-- Counterexample to C3 as stated: over one fixed snapshot, the second
Reconcile pass changes the worker map (it adds an entry for A), because the
first pass overwrote a pre-existing entry and removed its IP. -/
theorem reconcile_idempotence_counterexample :
    syncMachines c3Env c3Kube = Except.ok c3KubeOnce ∧
      syncMachines c3Env c3KubeOnce = Except.ok c3KubeTwice ∧
      c3KubeTwice ≠ c3KubeOnce :=
  ⟨rfl, rfl, by decide⟩

/-- C3 (amended): Reconcile is idempotent over a fixed inventory snapshot
whenever the snapshot's derived names are pairwise distinct and none of them
is already a key of the (well-formed) worker map: a second run over the same
snapshot returns the cluster unchanged, since every merged instance is then
known by IP (or re-inserted identically when it lacks an IP). -/
theorem reconcile_idempotent_fresh_names (env : SyncEnv) (k : Kube)
    (rs : List Reservation)
    (hc : env.fillCredentials = Except.ok ()) (he : env.getEC2 = Except.ok ())
    (hd : env.describeInstances (describeInput k) = Except.ok rs)
    (hnames : ((allInstances rs).map fun i => derivedName i.tags).Nodup)
    (hfresh : ∀ i ∈ allInstances rs, lookupM k.nodes (derivedName i.tags) = none)
    (hnd : nodupKeys k.nodes)
    (k1 : Kube) (h1 : syncMachines env k = Except.ok k1) :
    syncMachines env k1 = Except.ok k1 := by
  have hok := syncMachines_ok env k rs hc he hd
  rw [hok] at h1
  have hEq : syncLoop k (allInstances rs) = k1 := Except.ok.inj h1
  have hd1 : env.describeInstances (describeInput k1) = Except.ok rs := by
    have hin : describeInput k1 = describeInput k := by
      unfold describeInput
      rw [← hEq, syncLoop_id]
    rw [hin]
    exact hd
  have hok1 := syncMachines_ok env k1 rs hc he hd1
  rw [hok1, ← hEq, syncLoop_idem (allInstances rs) k hnames hfresh hnd]

/-- The empty cluster of the C3 witness scenario. -/
def c3wKube : Kube :=
  { id := "c3w", name := "c3w", region := "r", masters := [], nodes := [] }

/-- The snapshot of the C3 witness scenario: two running instances with
distinct fresh names. -/
def c3wEnv : SyncEnv :=
  { fillCredentials := Except.ok (), getEC2 := Except.ok (),
    describeInstances := fun _ => Except.ok
      [{ instances :=
          [{ instanceType := "t", stateCode := some 16, publicIp := none,
             privateIp := some "p",
             tags := [{ key := some tagNodeName, value := "A" }] },
           { instanceType := "t", stateCode := some 16, publicIp := none,
             privateIp := some "q",
             tags := [{ key := some tagNodeName, value := "B" }] }] }] }

/-- The C3 witness cluster after one pass: both instances merged. -/
def c3wKube1 : Kube :=
  { id := "c3w", name := "c3w", region := "r", masters := [],
    nodes := [("A",
      { name := "A", role := Role.node, state := MachineState.active,
        size := "t", region := "r", privateIp := "p", publicIp := "" }),
     ("B",
      { name := "B", role := Role.node, state := MachineState.active,
        size := "t", region := "r", privateIp := "q", publicIp := "" })] }

/-- Witness for the amended C3: on a fresh, distinctly named snapshot the
second pass returns the once-reconciled cluster unchanged. -/
theorem reconcile_idempotent_fresh_names_witness :
    syncMachines c3wEnv c3wKube1 = Except.ok c3wKube1 :=
  reconcile_idempotent_fresh_names c3wEnv c3wKube _ rfl rfl rfl
    (by decide) (by decide) (by decide) c3wKube1 rfl

/-- The empty cluster of the C4 scenario. -/
def c4Kube : Kube :=
  { id := "c4", name := "c4", region := "r", masters := [], nodes := [] }

/-- The C4 inventory: one running instance with no tags and no private IP
(unusable identity data). -/
def c4Env : SyncEnv :=
  { fillCredentials := Except.ok (), getEC2 := Except.ok (),
    describeInstances := fun _ => Except.ok
      [{ instances :=
          [{ instanceType := "t", stateCode := some 16, publicIp := none,
             privateIp := none, tags := [] }] }] }

/-- The machine the C4 instance is merged as: empty name, empty IPs. -/
def c4Machine : Machine :=
  { name := "", role := Role.node, state := MachineState.active,
    size := "t", region := "r", privateIp := "", publicIp := "" }

/-- Counterexample to C4 as stated: a running instance with no node-name tag
and no private IP is not skipped — Reconcile inserts it into `Nodes` under
the empty-string name (while still returning success). -/
theorem reconcile_missing_identity_counterexample :
    syncMachines c4Env c4Kube = Except.ok { c4Kube with nodes := [("", c4Machine)] } ∧
      lookupM [("", c4Machine)] "" = some c4Machine ∧
      [("", c4Machine)] ≠ ([] : NodeMap) :=
  ⟨rfl, by decide, by decide⟩

/-- C4 (amended): once the inventory query succeeds, Reconcile always
returns success — per-instance classification anomalies never abort the pass
or surface as an error — but an instance with unusable identity data is not
skipped: a running, unknown, non-master instance with no tags and no private
IP is inserted into `Nodes` under the empty-string name. -/
theorem reconcile_always_succeeds (env : SyncEnv) (k : Kube)
    (rs : List Reservation)
    (hc : env.fillCredentials = Except.ok ()) (he : env.getEC2 = Except.ok ())
    (hd : env.describeInstances (describeInput k) = Except.ok rs) :
    (∃ k', syncMachines env k = Except.ok k') ∧
      ∀ i : Instance, i.tags = [] → mergeGate k i →
        lookupM (syncStep k i).nodes "" = some (machineOf k i) := by
  constructor
  · exact ⟨_, syncMachines_ok env k rs hc he hd⟩
  · intro i ht hg
    rw [syncStep_merge k i hg]
    show lookupM (insertM k.nodes (derivedName i.tags) (machineOf k i)) "" = _
    rw [show derivedName i.tags = "" from by rw [ht]; rfl]
    exact lookupM_insertM_eq _ _ _

/-- Witness for the amended C4: the unusable-identity inventory still yields
a successful pass. -/
theorem reconcile_always_succeeds_witness :
    ∃ k', syncMachines c4Env c4Kube = Except.ok k' :=
  (reconcile_always_succeeds c4Env c4Kube _ rfl rfl rfl).1

/-- The empty cluster of the C5 end-to-end scenario. -/
def c5Kube : Kube :=
  { id := "c5", name := "c5", region := "r1", masters := [], nodes := [] }

/-- The C5 inventory: exactly one instance with state code 16, private IP
10.0.1.5 and node-name tag worker-a. -/
def c5Env : SyncEnv :=
  { fillCredentials := Except.ok (), getEC2 := Except.ok (),
    describeInstances := fun _ => Except.ok
      [{ instances :=
          [{ instanceType := "m4.large", stateCode := some 16, publicIp := none,
             privateIp := some "10.0.1.5",
             tags := [{ key := some tagNodeName, value := "worker-a" }] }] }] }

/-- The machine the C5 scenario merges. -/
def c5Machine : Machine :=
  { name := "worker-a", role := Role.node, state := MachineState.active,
    size := "m4.large", region := "r1", privateIp := "10.0.1.5", publicIp := "" }

/-- C5: on the empty cluster, Reconcile over that single-instance inventory
terminates with `Nodes` holding exactly one entry, keyed worker-a, whose
machine has private IP 10.0.1.5, the worker role and the active state. -/
theorem reconcile_end_to_end_scenario :
    syncMachines c5Env c5Kube =
        Except.ok { c5Kube with nodes := [("worker-a", c5Machine)] } ∧
      c5Machine.privateIp = "10.0.1.5" ∧ c5Machine.role = Role.node ∧
      c5Machine.state = MachineState.active :=
  ⟨rfl, rfl, rfl, rfl⟩

/-- The pre-existing worker entry of the C6 counterexample. -/
def c6Before : Machine :=
  { name := "n", role := Role.node, state := MachineState.active,
    size := "t", region := "r", privateIp := "1.1.1.1", publicIp := "" }

/-- The machine that overwrites it. -/
def c6After : Machine :=
  { name := "n", role := Role.node, state := MachineState.active,
    size := "t2", region := "r", privateIp := "2.2.2.2", publicIp := "" }

/-- The cluster of the C6 counterexample: one worker entry keyed "n". -/
def c6Kube : Kube :=
  { id := "c6", name := "c6", region := "r", masters := [],
    nodes := [("n", c6Before)] }

/-- The C6 inventory: a running instance deriving the same name "n" but
carrying a different private IP. -/
def c6Rs : List Reservation :=
  [{ instances :=
      [{ instanceType := "t2", stateCode := some 16, publicIp := none,
         privateIp := some "2.2.2.2",
         tags := [{ key := some tagNodeName, value := "n" }] }] }]

/-- The C6 environment returning that inventory. -/
def c6Env : SyncEnv :=
  { fillCredentials := Except.ok (), getEC2 := Except.ok (),
    describeInstances := fun _ => Except.ok c6Rs }

/-- Counterexample to C6 as stated: the pass overwrites the pre-existing
entry keyed "n" with a different machine, so an entry present before the
call is not left unmodified. -/
theorem reconcile_additive_counterexample :
    lookupM c6Kube.nodes "n" = some c6Before ∧
      syncMachines c6Env c6Kube = Except.ok { c6Kube with nodes := [("n", c6After)] } ∧
      lookupM [("n", c6After)] "n" = some c6After ∧ c6After ≠ c6Before :=
  ⟨by decide, rfl, by decide, by decide⟩

/-- C6 (amended): Reconcile touches only the `Nodes` map: `Masters` and all
other cluster fields are unchanged, no key is ever deleted from `Nodes`, and
every worker entry whose key no observed instance derives reads exactly as
before; but a pre-existing worker entry can be overwritten when a merged
instance derives its key. -/
theorem reconcile_frame_properties (env : SyncEnv) (k : Kube)
    (rs : List Reservation)
    (hc : env.fillCredentials = Except.ok ()) (he : env.getEC2 = Except.ok ())
    (hd : env.describeInstances (describeInput k) = Except.ok rs) :
    ∃ k', syncMachines env k = Except.ok k' ∧
      k'.masters = k.masters ∧ k'.id = k.id ∧ k'.name = k.name ∧
      k'.region = k.region ∧
      (∀ n m, lookupM k.nodes n = some m → ∃ m', lookupM k'.nodes n = some m') ∧
      (∀ n, (∀ i ∈ allInstances rs, derivedName i.tags ≠ n) →
        lookupM k'.nodes n = lookupM k.nodes n) := by
  refine ⟨syncLoop k (allInstances rs), syncMachines_ok env k rs hc he hd,
    syncLoop_masters k _, syncLoop_id k _, syncLoop_name k _, syncLoop_region k _,
    fun n m h => syncLoop_no_delete k _ n m h,
    fun n h => lookupM_syncLoop_ne k _ n h⟩

/-- Witness for the amended C6 at the concrete overwrite scenario. -/
theorem reconcile_frame_properties_witness :
    ∃ k', syncMachines c6Env c6Kube = Except.ok k' ∧
      k'.masters = c6Kube.masters ∧ k'.id = c6Kube.id ∧ k'.name = c6Kube.name ∧
      k'.region = c6Kube.region ∧
      (∀ n m, lookupM c6Kube.nodes n = some m →
        ∃ m', lookupM k'.nodes n = some m') ∧
      (∀ n, (∀ i ∈ allInstances c6Rs, derivedName i.tags ≠ n) →
        lookupM k'.nodes n = lookupM c6Kube.nodes n) :=
  reconcile_frame_properties c6Env c6Kube c6Rs rfl rfl rfl

/-- C7: when the configured volume-size string does not parse as a decimal
integer, RequestSpotCapacity (createAwsSpotInstance) returns an error and
the spot-submission call is never made: the malformed configuration aborts
the operation before any remote submission. -/
theorem spot_malformed_volume_size_aborts (env : SpotEnv) (req : SpotRequest)
    (config : Config) (h : goParseInt64 config.awsConfig.volumeSize = none) :
    (∃ e, (createAwsSpotInstance env req config).result = Except.error e) ∧
      (createAwsSpotInstance env req config).submitCalls = 0 := by
  unfold createAwsSpotInstance
  cases hg : env.getEC2 with
  | error e => exact ⟨⟨_, rfl⟩, rfl⟩
  | ok u =>
    rw [h]
    exact ⟨⟨_, rfl⟩, rfl⟩

/-- The configuration of the C7 witness: volume size "2x" is malformed. -/
def c7Config : Config :=
  { provider := Provider.aws
    awsConfig :=
      { region := "r1", availabilityZone := "r1a", instanceType := "",
        volumeSize := "2x", nodesInstanceProfile := "profile",
        subnets := [("r1a", "subnet-1")], nodesSecurityGroupID := "sg-1",
        imageID := "ami-1", keyPairName := "kp" }
    configMapData := "payload", dryRun := false, kubeName := "c7",
    kubeID := "c7", isMaster := false }

/-- The environment of the C7 witness: the client constructs fine and any
submission would succeed — yet none happens. -/
def c7Env : SpotEnv :=
  { getEC2 := Except.ok ()
    requestSpotInstances := fun _ => Except.ok { requestIds := ["sir-1"] }
    now := 0, uuid := "uuid-1" }

/-- The intent of the C7 witness. -/
def c7Req : SpotRequest :=
  { machineType := "m4.large", spotPrice := "0.05", availabilityZone := "r1a",
    machineCount := 1 }

/-- Witness for C7: with the malformed volume size "2x" the call errors and
zero submissions are made. -/
theorem spot_malformed_volume_size_aborts_witness :
    (∃ e, (createAwsSpotInstance c7Env c7Req c7Config).result = Except.error e) ∧
      (createAwsSpotInstance c7Env c7Req c7Config).submitCalls = 0 :=
  spot_malformed_volume_size_aborts c7Env c7Req c7Config (by decide)

/-- C8: for every successful price-history response, SpotPriceHistory
(getAwsSpotPrices) returns exactly the price strings of the entries whose
product/OS description case-folds to the Unix/Linux family, in the
provider-returned order; for an empty history it returns an empty sequence
and no error. -/
theorem spot_prices_filter_order (env : PricingEnv) (machineType : String)
    (config : Config) (hist : List PriceEntry)
    (he : env.getEC2 = Except.ok ())
    (hq : env.describeSpotPriceHistory (priceHistoryInput env machineType config) =
      Except.ok hist) :
    getAwsSpotPrices env machineType config =
        Except.ok ((hist.filter fun p =>
          equalFold p.productDescription "Linux/UNIX").map fun p => p.spotPrice) ∧
      (hist = [] → getAwsSpotPrices env machineType config = Except.ok []) := by
  have hmain : getAwsSpotPrices env machineType config =
      Except.ok ((hist.filter fun p =>
        equalFold p.productDescription "Linux/UNIX").map fun p => p.spotPrice) := by
    unfold getAwsSpotPrices
    rw [he, hq]
    exact congrArg Except.ok
      ((priceFold_eq_filter_map hist []).trans (List.nil_append _))
  refine ⟨hmain, fun hnil => ?_⟩
  rw [hmain, hnil]
  rfl

/-- The pricing environment of the C8 witness: a mixed-OS history. -/
def c8Env : PricingEnv :=
  { getEC2 := Except.ok ()
    describeSpotPriceHistory := fun _ => Except.ok
      [{ productDescription := "Linux/UNIX", spotPrice := "0.0101" },
       { productDescription := "Windows", spotPrice := "0.0302" },
       { productDescription := "linux/unix", spotPrice := "0.0203" }]
    now := 0 }

/-- Witness for C8: the mixed history filters to the two Unix/Linux prices,
in provider order. -/
theorem spot_prices_filter_order_witness :
    getAwsSpotPrices c8Env "m4.large" c7Config = Except.ok ["0.0101", "0.0203"] := by
  have h := (spot_prices_filter_order c8Env "m4.large" c7Config
    [{ productDescription := "Linux/UNIX", spotPrice := "0.0101" },
     { productDescription := "Windows", spotPrice := "0.0302" },
     { productDescription := "linux/unix", spotPrice := "0.0203" }] rfl rfl).1
  rw [h]
  rfl

/-- C9: SpotPriceHistory (getAwsSpotPrices) returns an error exactly when
client construction fails; a failed price-history query is treated as zero
prices and yields an empty list with no error, never propagating the query
failure. -/
theorem spot_prices_error_only_client_construction (env : PricingEnv)
    (machineType : String) (config : Config) :
    (∀ e, env.getEC2 = Except.error e →
      getAwsSpotPrices env machineType config =
        Except.error (wrapErr "get EC2 client" e)) ∧
      (env.getEC2 = Except.ok () →
        ∃ l, getAwsSpotPrices env machineType config = Except.ok l) ∧
      (∀ e, env.getEC2 = Except.ok () →
        env.describeSpotPriceHistory (priceHistoryInput env machineType config) =
          Except.error e →
        getAwsSpotPrices env machineType config = Except.ok []) ∧
      (∀ e', getAwsSpotPrices env machineType config = Except.error e' →
        ∃ e, env.getEC2 = Except.error e) := by
  refine ⟨?_, ?_, ?_, ?_⟩
  · intro e he
    unfold getAwsSpotPrices
    rw [he]
  · intro he
    unfold getAwsSpotPrices
    rw [he]
    exact ⟨_, rfl⟩
  · intro e he hq
    unfold getAwsSpotPrices
    rw [he, hq]
    rfl
  · intro e' hres
    cases hg : env.getEC2 with
    | error e => exact ⟨e, rfl⟩
    | ok u =>
      cases u
      unfold getAwsSpotPrices at hres
      rw [hg] at hres
      exact Except.noConfusion hres

/-- The pricing environment of the C9 witness: the query itself fails. -/
def c9Env : PricingEnv :=
  { getEC2 := Except.ok ()
    describeSpotPriceHistory := fun _ => Except.error ⟨"throttled"⟩
    now := 0 }

/-- Witness for C9: the failed query is swallowed and an empty price list is
returned with no error. -/
theorem spot_prices_error_only_client_construction_witness :
    getAwsSpotPrices c9Env "m4.large" c7Config = Except.ok [] :=
  (spot_prices_error_only_client_construction c9Env "m4.large" c7Config).2.2.1
    ⟨"throttled"⟩ rfl rfl
